import Mathlib

/-!
Verification development for the CFO-Chatbot repository (src/CFO.py).

The program loads a tabular finance handbook with pandas (`load_data`),
ranks its rows against a user query with difflib-based fuzzy matching
(`similarity`, `find_relevant_rows`), renders the selected rows into a
prompt (`build_prompt`), and hands the prompt to an external generation
service inside a try/except (chat input handling, lines 114-135).

The shallow embedding below keeps the source's names.  pandas DataFrames
are modelled as a column-name list plus a list of rows (each row a list of
cells); a cell is either a string or a number, since `pd.read_csv` infers
dtypes and the score column added by `find_relevant_rows` is numeric.
Python floats are modelled as exact rationals: every quantity the program
computes (difflib ratios, their four-term sums) is a ratio of small
integers, so no rounding behaviour is relied upon by any claim.
-/

/-- A pandas cell: a string, or a number (difflib scores, and numeric
values produced by `read_csv` dtype inference, are numbers). -/
inductive Cell where
  | str (s : String)
  | rat (q : ℚ)
deriving DecidableEq, Repr

/-- True when the cell holds a string value. -/
def Cell.isStr : Cell → Bool
  | .str _ => true
  | .rat _ => false

/-- Python `str(x)`: identity on strings.  Number rendering is modelled as
`toString`; no claim evaluates it (all scored fields are strings after
load, which is why the source wraps the access in `str(...)`). -/
def pyStr : Cell → String
  | .str s => s
  | .rat q => toString q

/-- A pandas DataFrame: named columns and a list of rows. -/
structure DataFrame where
  cols : List String
  rows : List (List Cell)
deriving DecidableEq, Repr

/-- Index of a column name in a column list (pandas column lookup,
first occurrence). -/
def colIdx? : List String → String → Option Nat
  | [], _ => none
  | c :: cs, name => if c = name then some 0 else (colIdx? cs name).map (· + 1)

/-- Cell of a row at a named column, with pandas `Series.get(col, '')`
default semantics.  `row[col]` in the source would raise `KeyError` on a
missing column; every claim only evaluates this with the column present,
where both accesses agree. -/
def cellAt (cols : List String) (r : List Cell) (c : String) : Cell :=
  match colIdx? cols c with
  | some i => (r.get? i).getD (Cell.str "")
  | none => Cell.str ""

/-! ### difflib.SequenceMatcher (Python standard library)

`similarity` in the source is
`SequenceMatcher(None, a.lower(), b.lower()).ratio()`.  The matcher is
embedded from its documented contract for `isjunk=None`: the longest
matching block in `a[alo:ahi] x b[blo:bhi]` is the triple `(i, j, k)`
with maximal `k`, minimal `i` among those, minimal `j` among those;
`autojunk` removes "popular" elements of `b` (when `len(b) >= 200`,
elements occurring more than `len(b) // 100 + 1` times) from the
candidate positions, after which the best block is extended on both
sides by equal elements.  `ratio` is `2*M / (len(a)+len(b))` where `M`
is the total size of all matching blocks, and `1.0` when both are
empty. -/

/-- difflib autojunk: with `isjunk=None`, an element of `b` is "popular"
when `len(b) >= 200` and it occurs more than `len(b) // 100 + 1` times. -/
def popularB (b : List Char) : Char → Bool := fun c =>
  decide (200 ≤ b.length) && decide (b.length / 100 + 1 < b.count c)

/-- Positions `i`, `j` carry equal elements and `b`'s one is not junk. -/
def matchAt (a b : List Char) (pop : Char → Bool) (i j : Nat) : Bool :=
  match a.get? i, b.get? j with
  | some x, some y => x == y && !(pop y)
  | _, _ => false

/-- Positions `i`, `j` carry equal elements (junk ignored: with
`isjunk=None` the junk set is empty, so block extension matches any
equal elements). -/
def chEq (a b : List Char) (i j : Nat) : Bool :=
  match a.get? i, b.get? j with
  | some x, some y => x == y
  | _, _ => false

/-- Length of the maximal non-junk matching run starting at `(i, j)`,
bounded by `ahi`, `bhi`.  Fuel-driven; callers pass fuel `>= ahi - i`. -/
def runLen (a b : List Char) (pop : Char → Bool) (ahi bhi : Nat) :
    Nat → Nat → Nat → Nat
  | 0, _, _ => 0
  | fuel + 1, i, j =>
    if i < ahi ∧ j < bhi ∧ matchAt a b pop i j then
      runLen a b pop ahi bhi fuel (i + 1) (j + 1) + 1
    else 0

/-- Keep the candidate only when strictly longer (difflib updates its
best block only on `k > bestsize`, so the scan order decides ties). -/
def betterM (best cand : Nat × Nat × Nat) : Nat × Nat × Nat :=
  if best.2.2 < cand.2.2 then cand else best

/-- The best non-junk matching block of `a[alo:ahi] x b[blo:bhi]`:
maximal size, then earliest in `a`, then earliest in `b` (difflib's
documented choice), found by scanning all starting pairs in order. -/
def flmCore (a b : List Char) (pop : Char → Bool) (alo ahi blo bhi : Nat) :
    Nat × Nat × Nat :=
  (List.range' alo (ahi - alo)).foldl (fun best i =>
    (List.range' blo (bhi - blo)).foldl (fun best j =>
      betterM best (i, j, runLen a b pop ahi bhi (ahi - i) i j)) best)
    (alo, blo, 0)

/-- difflib's left extension loop: grow the block leftwards over equal
elements. -/
def extendLeft (a b : List Char) (alo blo : Nat) :
    Nat → Nat × Nat × Nat → Nat × Nat × Nat
  | 0, best => best
  | fuel + 1, best =>
    if alo < best.1 ∧ blo < best.2.1 ∧ chEq a b (best.1 - 1) (best.2.1 - 1) then
      extendLeft a b alo blo fuel (best.1 - 1, best.2.1 - 1, best.2.2 + 1)
    else best

/-- difflib's right extension loop: grow the block rightwards over equal
elements. -/
def extendRight (a b : List Char) (ahi bhi : Nat) :
    Nat → Nat × Nat × Nat → Nat × Nat × Nat
  | 0, best => best
  | fuel + 1, best =>
    if best.1 + best.2.2 < ahi ∧ best.2.1 + best.2.2 < bhi ∧
        chEq a b (best.1 + best.2.2) (best.2.1 + best.2.2) then
      extendRight a b ahi bhi fuel (best.1, best.2.1, best.2.2 + 1)
    else best

/-- `find_longest_match` on the ranges `[alo, ahi)`, `[blo, bhi)`. -/
def flm (a b : List Char) (pop : Char → Bool) (alo ahi blo bhi : Nat) :
    Nat × Nat × Nat :=
  extendRight a b ahi bhi ahi
    (extendLeft a b alo blo ahi (flmCore a b pop alo ahi blo bhi))

/-- Total size of all matching blocks (`get_matching_blocks` recursion:
best block, then recurse on the pieces to its left and right).  The fuel
`(ahi - alo) + (bhi - blo)` suffices since each recursive range is
strictly smaller. -/
def mbSum (a b : List Char) (pop : Char → Bool) :
    Nat → Nat → Nat → Nat → Nat → Nat
  | 0, _, _, _, _ => 0
  | fuel + 1, alo, ahi, blo, bhi =>
    let t := flm a b pop alo ahi blo bhi
    if t.2.2 = 0 then 0
    else
      mbSum a b pop fuel alo t.1 blo t.2.1 + t.2.2 +
        mbSum a b pop fuel (t.1 + t.2.2) ahi (t.2.1 + t.2.2) bhi

/-- Number of matching elements between `a` and `b`
(`sum(block.size for block in get_matching_blocks())`). -/
def smMatches (a b : List Char) : Nat :=
  mbSum a b (popularB b) (a.length + b.length) 0 a.length 0 b.length

/-- `SequenceMatcher.ratio()`: `2*M / T` where `T` is the total length,
and `1.0` when `T = 0` (`difflib._calculate_ratio`). -/
def ratioQ (a b : List Char) : ℚ :=
  if a.length + b.length = 0 then 1
  else (2 * (smMatches a b : ℚ)) / ((a.length + b.length : Nat) : ℚ)

/-- Source `similarity(a, b)` (CFO.py lines 26-27):
`SequenceMatcher(None, a.lower(), b.lower()).ratio()`.  `String.toLower`
lowercases ASCII letters; Python's `str.lower` additionally folds
non-ASCII letters, which no claim depends on. -/
def similarity (a b : String) : ℚ :=
  ratioQ a.toLower.data b.toLower.data

/-! ### find_relevant_rows (CFO.py lines 29-38) -/

/-- The four scored columns (CFO.py line 30, the `expected_cols` local of
`find_relevant_rows`). -/
def scoring_cols : List String :=
  ["Rule", "Example", "Learning Objective", "Related Concept"]

/-- Source `row_score(row)` (CFO.py lines 32-33):
`sum([similarity(question, str(row[col])) for col in expected_cols])`. -/
def row_score (question : String) (cols : List String) (r : List Cell) : ℚ :=
  (scoring_cols.map (fun c => similarity question (pyStr (cellAt cols r c)))).sum

/-- `df.copy()` (CFO.py line 35): a fresh frame with equal contents, so
writes to the copy never reach the frame it was copied from. -/
def copyDf (df : DataFrame) : DataFrame :=
  ⟨df.cols, df.rows⟩

/-- `df[name] = vals` on a whole column: replace the column's cells when
the name exists, otherwise append a new column at the end. -/
def setCol (cols : List String) (rows : List (List Cell)) (name : String)
    (vals : List Cell) : List String × List (List Cell) :=
  match colIdx? cols name with
  | some i => (cols, List.zipWith (fun r v => r.set i v) rows vals)
  | none => (cols ++ [name], List.zipWith (fun r v => r ++ [v]) rows vals)

/-- `df.drop(columns=[name])`: remove the column and its cells.  (pandas
raises on a missing name; `find_relevant_rows` only drops the `score`
column it just set, which is always present.) -/
def dropCol (cols : List String) (rows : List (List Cell)) (name : String) :
    List String × List (List Cell) :=
  match colIdx? cols name with
  | some i => (cols.eraseIdx i, rows.map (·.eraseIdx i))
  | none => (cols, rows)

/-- Numeric value of a cell; the sort key column built by
`find_relevant_rows` holds only numbers. -/
def cellQ : Cell → ℚ
  | .rat q => q
  | .str _ => 0

/-- Sort key of a row: the value of its cell at position `si` (the
`score` column). -/
def rowKey (si : Nat) (r : List Cell) : ℚ :=
  cellQ ((r.get? si).getD (Cell.str ""))

/-- Insert a row into a descending-sorted list, after any row of equal
key (stable insertion). -/
def insertRowDesc (key : List Cell → ℚ) (x : List Cell) :
    List (List Cell) → List (List Cell)
  | [] => [x]
  | y :: ys => if key y ≤ key x then x :: y :: ys else y :: insertRowDesc key x ys

/-- `df.sort_values("score", ascending=False)` as a stable descending
sort.  pandas' default `kind='quicksort'` coincides with a stable sort on
small frames (numpy falls back to insertion sort below 16 elements, and
pandas reverses the values before and the indexer after an ascending
argsort), but offers no stability guarantee in general — see claim C2. -/
def sortRowsDesc (key : List Cell → ℚ) : List (List Cell) → List (List Cell)
  | [] => []
  | x :: xs => insertRowDesc key x (sortRowsDesc key xs)

/-- Source `find_relevant_rows(question, top_n=3)` (CFO.py lines 29-38):
copy the store, add a `score` column, sort on it descending, take the
head, drop the `score` column.  The function is total, also on a store
with no rows: pandas (1.3 and later, the versions able to run this
source's `read_csv(..., on_bad_lines=...)`) probes the empty
`apply(..., axis=1)` with a `NaN` `Series` indexed by the columns, so
`row_score` reduces to a scalar, the apply returns an empty `Series`,
and assignment, sort, head and drop act on the empty frame — the result
is an empty frame with the score column dropped, as here. -/
def find_relevant_rows (data_df : DataFrame) (question : String)
    (top_n : Nat := 3) : DataFrame :=
  let df_copy := copyDf data_df
  let scores := df_copy.rows.map (fun r => Cell.rat (row_score question df_copy.cols r))
  let p := setCol df_copy.cols df_copy.rows "score" scores
  let si := (colIdx? p.1 "score").getD 0
  let top := (sortRowsDesc (rowKey si) p.2).take top_n
  let d := dropCol p.1 top "score"
  ⟨d.1, d.2⟩

/-- One call of the ranker against the shared store, returning its
result together with the store that later requests will see: the source
mutates only `df_copy` (line 35, "avoid mutating global cached df"), so
the shared `data_df` is passed through unchanged. -/
def rank_step (store : DataFrame) (q : String) (n : Nat) :
    DataFrame × DataFrame :=
  (find_relevant_rows store q n, store)

/-- The shared store after `k` successive ranker calls. -/
def rank_iter (q : String) (n : Nat) : Nat → DataFrame → DataFrame
  | 0, s => s
  | k + 1, s => rank_iter q n k (rank_step s q n).2

/-! ### build_prompt (CFO.py lines 41-62) -/

/-- One context block of `build_prompt` (CFO.py lines 44-50); field
access is `row.get(col, '')`. -/
def contextRow (cols : List String) (r : List Cell) : String :=
  "\n:small_blue_diamond: **Chapter:** " ++ pyStr (cellAt cols r "Chapter") ++
  "\n:small_blue_diamond: **Section:** " ++ pyStr (cellAt cols r "Section") ++
  "\n:small_blue_diamond: **Rule:** " ++ pyStr (cellAt cols r "Rule") ++
  "\n:small_blue_diamond: **Example:** " ++ pyStr (cellAt cols r "Example") ++
  "\n:small_blue_diamond: **Learning Objective:** " ++
  pyStr (cellAt cols r "Learning Objective") ++ "\n"

/-- The `context_text` accumulation loop of `build_prompt`
(CFO.py lines 42-50). -/
def contextText (context_df : DataFrame) : String :=
  context_df.rows.foldl (fun acc r => acc ++ contextRow context_df.cols r) ""

/-- Source `build_prompt(question, context_df)` (CFO.py lines 41-62). -/
def build_prompt (question : String) (context_df : DataFrame) : String :=
  "\nYou are a CFO Assistant AI. Use only the context below from a corporate finance handbook to answer the user’s question.\nIf the context isn\u0027t relevant, answer using your finance expertise but clearly explain your reasoning.\n\n### User Question:\n"
  ++ question
  ++ "\n\n### CFO Handbook Context:\n"
  ++ contextText context_df
  ++ "\n\n### Your Answer:\n"

/-! ### load_data (CFO.py lines 12-21) -/

/-- The expected columns enforced at load time (CFO.py line 17). -/
def expected_cols : List String :=
  ["Chapter", "Section", "Rule", "Example", "Learning Objective", "Related Concept"]

/-- The table produced by `pd.read_csv` before any cleanup: its cells may
be missing (`NaN`, modelled as `none`) and, by dtype inference, may be
numbers rather than strings. -/
structure RawFrame where
  cols : List String
  cells : List (List (Option Cell))
deriving DecidableEq, Repr

/-- `NaN`-collapsing used by `fillna("")`: an absent cell becomes the
empty string. -/
def unNaN (oc : Option Cell) : Cell :=
  oc.getD (Cell.str "")

/-- `df.fillna("", inplace=True)` (CFO.py line 14). -/
def fillna (rf : RawFrame) : DataFrame :=
  ⟨rf.cols, rf.cells.map (fun r => r.map unNaN)⟩

/-- One iteration of the expected-column loop (CFO.py lines 18-20):
`if col not in df.columns: df[col] = ""`. -/
def addMissing (d : DataFrame) (c : String) : DataFrame :=
  if c ∈ d.cols then d else ⟨d.cols ++ [c], d.rows.map (fun r => r ++ [Cell.str ""])⟩

/-- Source `load_data()` (CFO.py lines 12-21) applied to the table that
`pd.read_csv` parsed from the data file (the file read itself is outside
the embedding): fill `NaN` cells with `""`, then synthesize each absent
expected column. -/
def load_data (raw : RawFrame) : DataFrame :=
  expected_cols.foldl addMissing (fillna raw)

/-- Cell of a loaded frame by row index and column name. -/
def dfCell (d : DataFrame) (i : Nat) (c : String) : Option Cell :=
  (colIdx? d.cols c).bind fun j => (d.rows.get? i).bind fun r => r.get? j

/-- Cell of a raw parsed table by row index and column name (the outer
`Option` is lookup failure, the inner one is `NaN`). -/
def rawCell (rf : RawFrame) (i : Nat) (c : String) : Option (Option Cell) :=
  (colIdx? rf.cols c).bind fun j => (rf.cells.get? i).bind fun r => r.get? j

/-- A Row Store in the sense of the specification's data model: exactly
the six expected fields, rectangular rows, string-valued cells. -/
def IsRecordStore (df : DataFrame) : Prop :=
  df.cols = expected_cols ∧
    ∀ r ∈ df.rows, r.length = expected_cols.length ∧ ∀ c ∈ r, c.isStr = true

instance (df : DataFrame) : Decidable (IsRecordStore df) := by
  unfold IsRecordStore; infer_instance

/-! ### Chat input handling (CFO.py lines 114-135) -/

/-- A chat history entry (`st.session_state.messages` elements). -/
structure ChatMsg where
  role : String
  content : String
deriving DecidableEq, Repr

/-- The answer the user sees, from the outcome of the external
`model.generate_content` call (CFO.py lines 127-131): the response text
when present and non-empty, a fixed fallback when the call returned no
text, and the apology string carrying the exception when the call
raised. -/
def answer_of (resp : Except String (Option String)) : String :=
  match resp with
  | .ok t =>
    if t.getD "" = "" then "I couldn’t generate a response."
    else (t.getD "").trim
  | .error e => "💥 Oops! Something went wrong.\n\n`" ++ e ++ "`"

/-- One request cycle of the chat input handler (CFO.py lines 114-135):
append the user message, retrieve context, build the prompt, call the
external collaborator `gen`, and append the (possibly degraded) answer.
UI rendering is omitted.  Only the collaborator call is fallible; the
retrieval and prompt steps are total. -/
def chat_step (store : DataFrame) (messages : List ChatMsg)
    (user_input : String) (gen : String → Except String (Option String)) :
    List ChatMsg :=
  let relevant_context := find_relevant_rows store user_input 3
  let prompt := build_prompt user_input relevant_context
  let answer := answer_of (gen prompt)
  messages ++ [⟨"user", user_input⟩] ++ [⟨"assistant", answer⟩]

/-! ### Helper lemmas -/

/-- A predicate preserved by every step of a fold holds of the fold. -/
lemma foldl_inv {α β : Type} (P : β → Prop) (f : β → α → β) :
    ∀ (l : List α) (b : β), P b → (∀ x ∈ l, ∀ acc, P acc → P (f acc x)) →
      P (l.foldl f b) := by
  intro l
  induction l with
  | nil => intro b hb _; simpa using hb
  | cons x xs ih =>
    intro b hb h
    simp only [List.foldl_cons]
    exact ih (f b x) (h x (by simp) b hb)
      (fun y hy acc hacc => h y (by simp [hy]) acc hacc)

lemma runLen_le_left (a b : List Char) (pop : Char → Bool) (ahi bhi : Nat) :
    ∀ fuel i j, runLen a b pop ahi bhi fuel i j ≤ ahi - i := by
  intro fuel
  induction fuel with
  | zero => intro i j; simp [runLen]
  | succ n ih =>
    intro i j
    unfold runLen
    split
    · rename_i h
      have := ih (i + 1) (j + 1)
      omega
    · omega

lemma runLen_le_right (a b : List Char) (pop : Char → Bool) (ahi bhi : Nat) :
    ∀ fuel i j, runLen a b pop ahi bhi fuel i j ≤ bhi - j := by
  intro fuel
  induction fuel with
  | zero => intro i j; simp [runLen]
  | succ n ih =>
    intro i j
    unfold runLen
    split
    · rename_i h
      have := ih (i + 1) (j + 1)
      omega
    · omega

/-- The block `(i, j, k)` stays inside the ranges `[alo, ahi)` x `[blo, bhi)`. -/
def MBounds (alo ahi blo bhi : Nat) (t : Nat × Nat × Nat) : Prop :=
  alo ≤ t.1 ∧ blo ≤ t.2.1 ∧ t.1 + t.2.2 ≤ ahi ∧ t.2.1 + t.2.2 ≤ bhi

lemma flmCore_bounds (a b : List Char) (pop : Char → Bool)
    (alo ahi blo bhi : Nat) (h1 : alo ≤ ahi) (h2 : blo ≤ bhi) :
    MBounds alo ahi blo bhi (flmCore a b pop alo ahi blo bhi) := by
  unfold flmCore
  apply foldl_inv (MBounds alo ahi blo bhi)
  · simp only [MBounds]
    omega
  · intro i hi acc hacc
    apply foldl_inv (MBounds alo ahi blo bhi)
    · exact hacc
    · intro j hj acc' hacc'
      unfold betterM
      split
      · have hi' : alo ≤ i ∧ i < alo + (ahi - alo) := List.mem_range'_1.mp hi
        have hj' : blo ≤ j ∧ j < blo + (bhi - blo) := List.mem_range'_1.mp hj
        have hra := runLen_le_left a b pop ahi bhi (ahi - i) i j
        have hrb := runLen_le_right a b pop ahi bhi (ahi - i) i j
        simp only [MBounds]
        omega
      · exact hacc'

lemma extendLeft_bounds (a b : List Char) (alo ahi blo bhi : Nat) :
    ∀ fuel t, MBounds alo ahi blo bhi t →
      MBounds alo ahi blo bhi (extendLeft a b alo blo fuel t) := by
  intro fuel
  induction fuel with
  | zero => intro t ht; exact ht
  | succ n ih =>
    intro t ht
    unfold extendLeft
    split
    · rename_i h
      apply ih
      obtain ⟨m1, m2, m3, m4⟩ := ht
      obtain ⟨c1, c2, -⟩ := h
      simp only [MBounds]
      omega
    · exact ht

lemma extendRight_bounds (a b : List Char) (alo ahi blo bhi : Nat) :
    ∀ fuel t, MBounds alo ahi blo bhi t →
      MBounds alo ahi blo bhi (extendRight a b ahi bhi fuel t) := by
  intro fuel
  induction fuel with
  | zero => intro t ht; exact ht
  | succ n ih =>
    intro t ht
    unfold extendRight
    split
    · rename_i h
      apply ih
      obtain ⟨m1, m2, m3, m4⟩ := ht
      obtain ⟨c1, c2, -⟩ := h
      simp only [MBounds]
      omega
    · exact ht

lemma flm_bounds (a b : List Char) (pop : Char → Bool)
    (alo ahi blo bhi : Nat) (h1 : alo ≤ ahi) (h2 : blo ≤ bhi) :
    MBounds alo ahi blo bhi (flm a b pop alo ahi blo bhi) :=
  extendRight_bounds a b alo ahi blo bhi ahi _
    (extendLeft_bounds a b alo ahi blo bhi ahi _
      (flmCore_bounds a b pop alo ahi blo bhi h1 h2))

lemma mbSum_le_left (a b : List Char) (pop : Char → Bool) :
    ∀ fuel alo ahi blo bhi, alo ≤ ahi → blo ≤ bhi →
      mbSum a b pop fuel alo ahi blo bhi ≤ ahi - alo := by
  intro fuel
  induction fuel with
  | zero => intro alo ahi blo bhi _ _; simp [mbSum]
  | succ n ih =>
    intro alo ahi blo bhi h1 h2
    obtain ⟨m1, m2, m3, m4⟩ := flm_bounds a b pop alo ahi blo bhi h1 h2
    simp only [mbSum]
    split
    · omega
    · have hl := ih alo (flm a b pop alo ahi blo bhi).1 blo
        (flm a b pop alo ahi blo bhi).2.1 m1 m2
      have hr := ih ((flm a b pop alo ahi blo bhi).1 + (flm a b pop alo ahi blo bhi).2.2)
        ahi ((flm a b pop alo ahi blo bhi).2.1 + (flm a b pop alo ahi blo bhi).2.2) bhi
        m3 m4
      omega

lemma mbSum_le_right (a b : List Char) (pop : Char → Bool) :
    ∀ fuel alo ahi blo bhi, alo ≤ ahi → blo ≤ bhi →
      mbSum a b pop fuel alo ahi blo bhi ≤ bhi - blo := by
  intro fuel
  induction fuel with
  | zero => intro alo ahi blo bhi _ _; simp [mbSum]
  | succ n ih =>
    intro alo ahi blo bhi h1 h2
    obtain ⟨m1, m2, m3, m4⟩ := flm_bounds a b pop alo ahi blo bhi h1 h2
    simp only [mbSum]
    split
    · omega
    · have hl := ih alo (flm a b pop alo ahi blo bhi).1 blo
        (flm a b pop alo ahi blo bhi).2.1 m1 m2
      have hr := ih ((flm a b pop alo ahi blo bhi).1 + (flm a b pop alo ahi blo bhi).2.2)
        ahi ((flm a b pop alo ahi blo bhi).2.1 + (flm a b pop alo ahi blo bhi).2.2) bhi
        m3 m4
      omega

lemma smMatches_le_left (a b : List Char) : smMatches a b ≤ a.length := by
  have := mbSum_le_left a b (popularB b) (a.length + b.length) 0 a.length 0 b.length
    (by omega) (by omega)
  simpa [smMatches] using this

lemma smMatches_le_right (a b : List Char) : smMatches a b ≤ b.length := by
  have := mbSum_le_right a b (popularB b) (a.length + b.length) 0 a.length 0 b.length
    (by omega) (by omega)
  simpa [smMatches] using this

lemma ratioQ_nonneg (a b : List Char) : 0 ≤ ratioQ a b := by
  unfold ratioQ
  split
  · norm_num
  · apply div_nonneg
    · positivity
    · positivity

lemma ratioQ_le_one (a b : List Char) : ratioQ a b ≤ 1 := by
  unfold ratioQ
  split
  · norm_num
  · rename_i h
    have hM : 2 * smMatches a b ≤ a.length + b.length := by
      have h1 := smMatches_le_left a b
      have h2 := smMatches_le_right a b
      omega
    have hT : 0 < a.length + b.length := Nat.pos_of_ne_zero h
    rw [div_le_one (by exact_mod_cast hT)]
    exact_mod_cast hM

lemma similarity_nonneg (a b : String) : 0 ≤ similarity a b :=
  ratioQ_nonneg _ _

lemma similarity_le_one (a b : String) : similarity a b ≤ 1 :=
  ratioQ_le_one _ _

lemma insertRowDesc_perm (key : List Cell → ℚ) (x : List Cell) :
    ∀ l, (insertRowDesc key x l).Perm (x :: l) := by
  intro l
  induction l with
  | nil => exact List.Perm.refl _
  | cons y ys ih =>
    unfold insertRowDesc
    split
    · exact List.Perm.refl _
    · exact ((ih.cons y).trans (List.Perm.swap x y ys))

lemma sortRowsDesc_perm (key : List Cell → ℚ) :
    ∀ l, (sortRowsDesc key l).Perm l := by
  intro l
  induction l with
  | nil => exact List.Perm.refl _
  | cons x xs ih =>
    exact (insertRowDesc_perm key x (sortRowsDesc key xs)).trans (ih.cons x)

lemma zipWith_map_self {α β γ : Type} (g : α → β → γ) (f : α → β) :
    ∀ l : List α, List.zipWith g l (l.map f) = l.map (fun x => g x (f x)) := by
  intro l
  induction l with
  | nil => rfl
  | cons x xs ih => simp [ih]

lemma eraseIdx_concat {α : Type} : ∀ (l : List α) (x : α),
    (l ++ [x]).eraseIdx l.length = l := by
  intro l x
  induction l with
  | nil => rfl
  | cons y ys ih => simp [List.eraseIdx, ih]

lemma colIdx?_eq_none {l : List String} {c : String} (h : c ∉ l) :
    colIdx? l c = none := by
  induction l with
  | nil => rfl
  | cons y ys ih =>
    have hy : y ≠ c := fun he => h (he ▸ List.mem_cons_self y ys)
    have hc : c ∉ ys := fun hm => h (List.mem_cons_of_mem y hm)
    simp [colIdx?, hy, ih hc]

lemma colIdx?_append_self {l : List String} {c : String} (h : c ∉ l) :
    colIdx? (l ++ [c]) c = some l.length := by
  induction l with
  | nil => simp [colIdx?]
  | cons y ys ih =>
    have hy : y ≠ c := fun he => h (he ▸ List.mem_cons_self y ys)
    have hc : c ∉ ys := fun hm => h (List.mem_cons_of_mem y hm)
    simp [colIdx?, hy, ih hc]

lemma colIdx?_append_left {l l' : List String} {c : String} (h : c ∈ l) :
    colIdx? (l ++ l') c = colIdx? l c := by
  induction l with
  | nil => cases h
  | cons y ys ih =>
    by_cases hy : y = c
    · simp [colIdx?, hy]
    · have hc : c ∈ ys := by
        cases h with
        | head => exact absurd rfl hy
        | tail _ hm => exact hm
      simp [colIdx?, hy, ih hc]

lemma row_score_unfold (q : String) (cols : List String) (rr : List Cell) :
    row_score q cols rr =
      similarity q (pyStr (cellAt cols rr "Rule")) +
        similarity q (pyStr (cellAt cols rr "Example")) +
        similarity q (pyStr (cellAt cols rr "Learning Objective")) +
        similarity q (pyStr (cellAt cols rr "Related Concept")) := by
  simp only [row_score, scoring_cols, List.map_cons, List.map_nil, List.sum_cons,
    List.sum_nil]
  ring

lemma colIdx?_lt {l : List String} {c : String} :
    ∀ {i : Nat}, colIdx? l c = some i → i < l.length := by
  induction l with
  | nil => intro i h; simp [colIdx?] at h
  | cons y ys ih =>
    intro i h
    by_cases hy : y = c
    · simp [colIdx?, hy] at h
      simp only [List.length_cons]
      omega
    · simp [colIdx?, hy] at h
      obtain ⟨i', hi', rfl⟩ := h
      have := ih hi'
      simp only [List.length_cons]
      omega

/-! ### Example data used by witnesses and counterexamples -/

/-- A two-record Row Store (the specification's NPV / cash-flow scenario). -/
def dfEx : DataFrame :=
  ⟨expected_cols,
    [[Cell.str "1", Cell.str "Intro", Cell.str "Use NPV for capital budgeting",
      Cell.str "", Cell.str "", Cell.str ""],
     [Cell.str "2", Cell.str "Cash", Cell.str "Manage cash flow",
      Cell.str "", Cell.str "", Cell.str ""]]⟩

/-- A record of `dfEx`. -/
def rEx : List Cell :=
  [Cell.str "1", Cell.str "Intro", Cell.str "Use NPV for capital budgeting",
   Cell.str "", Cell.str "", Cell.str ""]

/-- `rEx` with different Chapter and Section fields but identical scored
fields. -/
def rEx2 : List Cell :=
  [Cell.str "99", Cell.str "Other", Cell.str "Use NPV for capital budgeting",
   Cell.str "", Cell.str "", Cell.str ""]

/-! ### Claim theorems -/

/-- C3: for every record, the relevance score is the sum, over exactly the
four fields Rule, Example, Learning Objective, Related Concept, of a
similarity ratio in `[0, 1]` between the lowercased query and the
lowercased field value; the total score lies in `[0, 4]`, and two records
agreeing on those four fields (so differing at most on Chapter and
Section) receive equal scores. -/
theorem row_score_is_sum_of_four_similarities
    (q a b : String) (cols : List String) (r r' : List Cell)
    (h : ∀ c ∈ scoring_cols, cellAt cols r c = cellAt cols r' c) :
    row_score q cols r =
        similarity q (pyStr (cellAt cols r "Rule")) +
          similarity q (pyStr (cellAt cols r "Example")) +
          similarity q (pyStr (cellAt cols r "Learning Objective")) +
          similarity q (pyStr (cellAt cols r "Related Concept")) ∧
      (0 ≤ similarity a b ∧ similarity a b ≤ 1) ∧
      (0 ≤ row_score q cols r ∧ row_score q cols r ≤ 4) ∧
      row_score q cols r = row_score q cols r' := by
  refine ⟨row_score_unfold q cols r,
    ⟨similarity_nonneg a b, similarity_le_one a b⟩, ⟨?_, ?_⟩, ?_⟩
  · rw [row_score_unfold]
    have n1 := similarity_nonneg q (pyStr (cellAt cols r "Rule"))
    have n2 := similarity_nonneg q (pyStr (cellAt cols r "Example"))
    have n3 := similarity_nonneg q (pyStr (cellAt cols r "Learning Objective"))
    have n4 := similarity_nonneg q (pyStr (cellAt cols r "Related Concept"))
    linarith
  · rw [row_score_unfold]
    have u1 := similarity_le_one q (pyStr (cellAt cols r "Rule"))
    have u2 := similarity_le_one q (pyStr (cellAt cols r "Example"))
    have u3 := similarity_le_one q (pyStr (cellAt cols r "Learning Objective"))
    have u4 := similarity_le_one q (pyStr (cellAt cols r "Related Concept"))
    linarith
  · rw [row_score_unfold q cols r, row_score_unfold q cols r',
      h "Rule" (by simp [scoring_cols]),
      h "Example" (by simp [scoring_cols]),
      h "Learning Objective" (by simp [scoring_cols]),
      h "Related Concept" (by simp [scoring_cols])]

/-- Witness for C3 at concrete inputs: two records that differ only on
Chapter and Section. -/
theorem row_score_is_sum_of_four_similarities_witness :
    (row_score "npv" expected_cols rEx =
        similarity "npv" (pyStr (cellAt expected_cols rEx "Rule")) +
          similarity "npv" (pyStr (cellAt expected_cols rEx "Example")) +
          similarity "npv" (pyStr (cellAt expected_cols rEx "Learning Objective")) +
          similarity "npv" (pyStr (cellAt expected_cols rEx "Related Concept"))) ∧
      (0 ≤ similarity "capital" "budget" ∧ similarity "capital" "budget" ≤ 1) ∧
      (0 ≤ row_score "npv" expected_cols rEx ∧ row_score "npv" expected_cols rEx ≤ 4) ∧
      row_score "npv" expected_cols rEx = row_score "npv" expected_cols rEx2 :=
  row_score_is_sum_of_four_similarities "npv" "capital" "budget" expected_cols
    rEx rEx2 (by decide)

/-- C4: ranking never mutates the Row Store — the shared table one call
returns to the next caller is the table it received, and after any number
of ranking calls the store is identical to the initial one. -/
theorem rank_never_mutates_store :
    ∀ (q : String) (n k : Nat) (s : DataFrame),
      (rank_step s q n).2 = s ∧ rank_iter q n k s = s := by
  intro q n k
  induction k with
  | zero => intro s; exact ⟨rfl, rfl⟩
  | succ m ih =>
    intro s
    exact ⟨rfl, (ih s).2⟩

/-- C5: ranking is deterministic — a second call with the same query and
`top_n` against the store state left by a first call returns exactly the
first call's output, and each call is the pure function
`find_relevant_rows` of its inputs. -/
theorem rank_deterministic_across_calls (s : DataFrame) (q : String) (n : Nat) :
    (rank_step s q n).1 = (rank_step (rank_step s q n).2 q n).1 ∧
      (rank_step s q n).1 = find_relevant_rows s q n :=
  ⟨rfl, rfl⟩

/-- C6: the composed prompt contains the query verbatim as a substring,
and for an empty context sequence the instructional framing and the query
are still emitted with an empty context block. -/
theorem prompt_contains_query_verbatim (q : String) (df : DataFrame) :
    q.data <:+: (build_prompt q df).data ∧
      (df.rows = [] →
        build_prompt q df =
          "\nYou are a CFO Assistant AI. Use only the context below from a corporate finance handbook to answer the user’s question.\nIf the context isn't relevant, answer using your finance expertise but clearly explain your reasoning.\n\n### User Question:\n"
            ++ q ++ "\n\n### CFO Handbook Context:\n" ++ "" ++ "\n\n### Your Answer:\n") := by
  constructor
  · refine ⟨"\nYou are a CFO Assistant AI. Use only the context below from a corporate finance handbook to answer the user’s question.\nIf the context isn't relevant, answer using your finance expertise but clearly explain your reasoning.\n\n### User Question:\n".data,
      ("\n\n### CFO Handbook Context:\n" ++ contextText df ++ "\n\n### Your Answer:\n").data, ?_⟩
    simp only [build_prompt, String.data_append, List.append_assoc]
  · intro h
    unfold build_prompt contextText
    rw [h]
    rfl

/-- Witness for C6 at a concrete query and the empty store. -/
theorem prompt_contains_query_verbatim_witness :
    "What is NPV?".data <:+:
        (build_prompt "What is NPV?" ⟨expected_cols, []⟩).data ∧
      build_prompt "What is NPV?" ⟨expected_cols, []⟩ =
        "\nYou are a CFO Assistant AI. Use only the context below from a corporate finance handbook to answer the user’s question.\nIf the context isn't relevant, answer using your finance expertise but clearly explain your reasoning.\n\n### User Question:\n"
          ++ "What is NPV?" ++ "\n\n### CFO Handbook Context:\n" ++ ""
          ++ "\n\n### Your Answer:\n" :=
  ⟨(prompt_contains_query_verbatim "What is NPV?" ⟨expected_cols, []⟩).1,
    (prompt_contains_query_verbatim "What is NPV?" ⟨expected_cols, []⟩).2 rfl⟩

lemma setCol_nil_rows (cols : List String) (name : String) (vals : List Cell) :
    (setCol cols [] name vals).2 = [] := by
  unfold setCol
  cases colIdx? cols name <;> simp

lemma dropCol_nil_rows (cols : List String) (name : String) :
    (dropCol cols [] name).2 = [] := by
  unfold dropCol
  cases colIdx? cols name <;> simp

/-- C8: for every query, every `top_n` and every column schema, ranking
over an empty Row Store returns an empty sequence.  The embedded
`find_relevant_rows` is total — matching pandas' non-raising
empty-apply path — so no error is possible. -/
theorem rank_empty_store_returns_empty (q : String) (n : Nat)
    (cols : List String) :
    (find_relevant_rows ⟨cols, []⟩ q n).rows = [] := by
  simp [find_relevant_rows, copyDf, setCol_nil_rows, sortRowsDesc,
    dropCol_nil_rows]

/-- C9: when the external answering-collaborator call fails (with any
error `e`, on every prompt), the request cycle — on every store,
including the empty one — still returns normally and appends the
user-visible degraded answer built from the exception in place of the
raw fault. -/
theorem failed_generation_yields_apology
    (store : DataFrame) (msgs : List ChatMsg) (q e : String)
    (gen : String → Except String (Option String))
    (hgen : ∀ p, gen p = Except.error e) :
    chat_step store msgs q gen =
      msgs ++ [⟨"user", q⟩] ++
        [⟨"assistant", "💥 Oops! Something went wrong.\n\n`" ++ e ++ "`"⟩] := by
  simp [chat_step, hgen, answer_of]

/-- Witness for C9: a request cycle against the empty store with a
collaborator that always fails with a quota error. -/
theorem failed_generation_yields_apology_witness :
    chat_step ⟨expected_cols, []⟩ [] "What is NPV?"
        (fun _ => Except.error "quota") =
      ([] : List ChatMsg) ++ [⟨"user", "What is NPV?"⟩] ++
        [⟨"assistant",
          "💥 Oops! Something went wrong.\n\n`" ++ "quota" ++ "`"⟩] :=
  failed_generation_yields_apology ⟨expected_cols, []⟩ [] "What is NPV?"
    "quota" (fun _ => Except.error "quota") (fun _ => rfl)

lemma setCol_of_not_mem {cols : List String} {rows : List (List Cell)}
    {name : String} {vals : List Cell} (h : name ∉ cols) :
    setCol cols rows name vals =
      (cols ++ [name], List.zipWith (fun r v => r ++ [v]) rows vals) := by
  simp [setCol, colIdx?_eq_none h]

lemma dropCol_concat {cols : List String} {rows : List (List Cell)}
    {name : String} (h : name ∉ cols) :
    dropCol (cols ++ [name]) rows name =
      (cols, rows.map (·.eraseIdx cols.length)) := by
  simp [dropCol, colIdx?_append_self h, eraseIdx_concat]

/-- With no pre-existing `score` column, `find_relevant_rows` appends
the score column, sorts, truncates, and erases exactly the appended
cell. -/
lemma find_relevant_rows_eq (df : DataFrame) (q : String) (n : Nat)
    (hs : "score" ∉ df.cols) :
    find_relevant_rows df q n =
      ⟨df.cols,
        ((sortRowsDesc (rowKey df.cols.length)
            (df.rows.map (fun r => r ++ [Cell.rat (row_score q df.cols r)]))).take n).map
          (·.eraseIdx df.cols.length)⟩ := by
  simp only [find_relevant_rows, copyDf, setCol_of_not_mem hs,
    colIdx?_append_self hs, dropCol_concat hs, zipWith_map_self,
    Option.getD_some]

/-- C1: for every query, every Row Store of records (the empty store
included) and every `top_n >= 1`, `find_relevant_rows` returns exactly
`min top_n |records|` records, each drawn from the input store. -/
theorem rank_returns_min_topn_rows (q : String) (df : DataFrame) (n : Nat)
    (hstore : IsRecordStore df) (hn : 1 ≤ n) :
    (find_relevant_rows df q n).rows.length = min n df.rows.length ∧
      ∀ r ∈ (find_relevant_rows df q n).rows, r ∈ df.rows := by
  obtain ⟨hcols, hrows⟩ := hstore
  have hs : "score" ∉ df.cols := by rw [hcols]; decide
  have heq := find_relevant_rows_eq df q n hs
  constructor
  · rw [heq]
    simp only [List.length_map, List.length_take,
      (sortRowsDesc_perm _ _).length_eq]
  · rw [heq]
    intro r hr
    simp only [List.mem_map] at hr
    obtain ⟨x, hx, rfl⟩ := hr
    have hx' := List.take_subset n _ hx
    have hx2 := (sortRowsDesc_perm _ _).mem_iff.mp hx'
    simp only [List.mem_map] at hx2
    obtain ⟨r0, hr0, rfl⟩ := hx2
    have hlen : df.cols.length = r0.length := by
      rw [hcols]
      exact ((hrows r0 hr0).1).symm
    rw [hlen, eraseIdx_concat]
    exact hr0

/-- Witness for C1: the specification's scenario of `top_n = 10` against
a two-record store returns exactly two records, both from the store; the
same theorem applied to the empty store returns `min 3 0 = 0` records. -/
theorem rank_returns_min_topn_rows_witness :
    ((find_relevant_rows dfEx "capital budgeting" 10).rows.length =
        min 10 dfEx.rows.length ∧
      ∀ r ∈ (find_relevant_rows dfEx "capital budgeting" 10).rows,
        r ∈ dfEx.rows) ∧
      ((find_relevant_rows ⟨expected_cols, []⟩ "capital budgeting" 3).rows.length =
          min 3 (DataFrame.mk expected_cols []).rows.length ∧
        ∀ r ∈ (find_relevant_rows ⟨expected_cols, []⟩ "capital budgeting" 3).rows,
          r ∈ (DataFrame.mk expected_cols []).rows) :=
  ⟨rank_returns_min_topn_rows "capital budgeting" dfEx 10 (by decide)
      (by decide),
    rank_returns_min_topn_rows "capital budgeting" ⟨expected_cols, []⟩ 3
      (by decide) (by decide)⟩

/-- C10 (amended): when the loaded store has no pre-existing column
named `score`, the ranking output has exactly the store's column
schema — the temporary `score` column is dropped. -/
theorem rank_preserves_schema_without_score_column (q : String)
    (df : DataFrame) (n : Nat) (hs : "score" ∉ df.cols) :
    (find_relevant_rows df q n).cols = df.cols := by
  rw [find_relevant_rows_eq df q n hs]

/-- Witness for C10 at a concrete store with the six-column schema. -/
theorem rank_preserves_schema_without_score_column_witness :
    (find_relevant_rows dfEx "cash" 3).cols = dfEx.cols :=
  rank_preserves_schema_without_score_column "cash" dfEx 3 (by decide)

/-- A parsed source table that already carries a `score` column. -/
def rawWithScore : RawFrame :=
  ⟨expected_cols ++ ["score"],
    [[some (Cell.str "1"), some (Cell.str "Intro"), some (Cell.str "npv"),
      some (Cell.str ""), some (Cell.str ""), some (Cell.str ""),
      some (Cell.str "keep me")]]⟩

/-- C10 counterexample: a loaded Row Store can carry a `score` column
(the loader keeps every source column), and on such a store the ranking
output's schema is not the store's schema — the pre-existing `score`
column is overwritten and then dropped. -/
theorem rank_drops_preexisting_score_column :
    (load_data rawWithScore).cols = expected_cols ++ ["score"] ∧
      (find_relevant_rows (load_data rawWithScore) "cash" 3).cols =
        expected_cols ∧
      expected_cols ≠ expected_cols ++ ["score"] := by
  refine ⟨by decide, by decide, by decide⟩

/-- Rows and columns have matching widths (what pandas guarantees for a
parsed frame). -/
def Rect (d : DataFrame) : Prop :=
  ∀ r ∈ d.rows, r.length = d.cols.length

lemma addMissing_rows_length (d : DataFrame) (c : String) :
    (addMissing d c).rows.length = d.rows.length := by
  unfold addMissing
  split <;> simp

lemma foldl_addMissing_rows_length :
    ∀ (cs : List String) (d : DataFrame),
      (cs.foldl addMissing d).rows.length = d.rows.length := by
  intro cs
  induction cs with
  | nil => intro d; rfl
  | cons c cs ih =>
    intro d
    rw [List.foldl_cons, ih, addMissing_rows_length]

lemma addMissing_cols_mono {d : DataFrame} {c' c : String} (h : c ∈ d.cols) :
    c ∈ (addMissing d c').cols := by
  unfold addMissing
  split
  · exact h
  · exact List.mem_append_left _ h

lemma addMissing_self_mem (d : DataFrame) (c : String) :
    c ∈ (addMissing d c).cols := by
  unfold addMissing
  split
  · assumption
  · simp

lemma addMissing_rect {d : DataFrame} {c : String} (h : Rect d) :
    Rect (addMissing d c) := by
  unfold addMissing
  split
  · exact h
  · intro r hr
    simp only [List.mem_map] at hr
    obtain ⟨r0, hr0, rfl⟩ := hr
    simp [h r0 hr0]

lemma dfCell_addMissing {d : DataFrame} {c' c : String} {i : Nat}
    (hm : c ∈ d.cols) (hr : Rect d) :
    dfCell (addMissing d c') i c = dfCell d i c := by
  unfold addMissing
  split
  · rfl
  · unfold dfCell
    simp only []
    rw [colIdx?_append_left hm]
    cases hj : colIdx? d.cols c with
    | none => simp
    | some j =>
      simp only [hj, Option.some_bind]
      rw [List.get?_map]
      cases hri : d.rows.get? i with
      | none => simp
      | some r =>
        have hjlt : j < r.length := by
          rw [hr r (List.get?_mem hri)]
          exact colIdx?_lt hj
        simp [List.getElem?_append_left hjlt]

lemma foldl_dfCell_preserved :
    ∀ (cs : List String) (d : DataFrame) (i : Nat) (c : String),
      c ∈ d.cols → Rect d →
      dfCell (cs.foldl addMissing d) i c = dfCell d i c := by
  intro cs
  induction cs with
  | nil => intro d i c _ _; rfl
  | cons c' cs ih =>
    intro d i c hm hr
    rw [List.foldl_cons,
      ih _ i c (addMissing_cols_mono hm) (addMissing_rect hr),
      dfCell_addMissing hm hr]

lemma dfCell_addMissing_new {d : DataFrame} {c : String} {i : Nat}
    (hc : c ∉ d.cols) (hr : Rect d) (hi : i < d.rows.length) :
    dfCell (addMissing d c) i c = some (Cell.str "") := by
  unfold addMissing
  rw [if_neg hc]
  unfold dfCell
  simp only []
  rw [colIdx?_append_self hc]
  cases hri : d.rows.get? i with
  | none =>
    exfalso
    have := List.get?_eq_none.mp hri
    omega
  | some r =>
    have hlen : r.length = d.cols.length := hr r (List.get?_mem hri)
    rw [List.get?_eq_getElem?] at hri
    rw [← hlen]
    simp [hri, List.getElem?_concat_length]

lemma foldl_addMissing_cols_mono :
    ∀ (cs : List String) (d : DataFrame) (c : String), c ∈ d.cols →
      c ∈ (cs.foldl addMissing d).cols := by
  intro cs
  induction cs with
  | nil => intro d c h; exact h
  | cons c' cs ih =>
    intro d c h
    rw [List.foldl_cons]
    exact ih _ c (addMissing_cols_mono h)

lemma foldl_addMissing_mem :
    ∀ (cs : List String) (d : DataFrame) (c : String), c ∈ cs →
      c ∈ (cs.foldl addMissing d).cols := by
  intro cs
  induction cs with
  | nil => intro d c h; cases h
  | cons c' cs ih =>
    intro d c h
    rw [List.foldl_cons]
    rcases List.mem_cons.mp h with rfl | h2
    · exact foldl_addMissing_cols_mono cs _ c (addMissing_self_mem d c)
    · exact ih _ c h2

lemma foldl_addMissing_new :
    ∀ (cs : List String) (d : DataFrame) (c : String), cs.Nodup → c ∈ cs →
      c ∉ d.cols → Rect d → ∀ i, i < d.rows.length →
      dfCell (cs.foldl addMissing d) i c = some (Cell.str "") := by
  intro cs
  induction cs with
  | nil => intro d c _ h; cases h
  | cons c' cs ih =>
    intro d c hnd hmem hc hr i hi
    rw [List.foldl_cons]
    rcases List.mem_cons.mp hmem with rfl | h2
    · rw [foldl_dfCell_preserved cs _ i c (addMissing_self_mem d c)
        (addMissing_rect hr), dfCell_addMissing_new hc hr hi]
    · have hnd' := List.nodup_cons.mp hnd
      have hne : c ≠ c' := fun he => hnd'.1 (he ▸ h2)
      have hc2 : c ∉ (addMissing d c').cols := by
        unfold addMissing
        split
        · exact hc
        · intro hmem2
          rcases List.mem_append.mp hmem2 with h3 | h3
          · exact hc h3
          · simp at h3
            exact hne h3
      have hi2 : i < (addMissing d c').rows.length := by
        rw [addMissing_rows_length]
        exact hi
      exact ih _ c hnd'.2 h2 hc2 (addMissing_rect hr) i hi2

lemma fillna_rect (raw : RawFrame)
    (hrect : ∀ r ∈ raw.cells, r.length = raw.cols.length) :
    Rect (fillna raw) := by
  intro r hr
  simp only [fillna, List.mem_map] at hr
  obtain ⟨r0, hr0, rfl⟩ := hr
  simp [fillna, hrect r0 hr0]

lemma fillna_dfCell (raw : RawFrame) (i : Nat) (c : String) :
    dfCell (fillna raw) i c = (rawCell raw i c).map unNaN := by
  unfold dfCell rawCell fillna
  simp only []
  cases hj : colIdx? raw.cols c with
  | none => simp [hj]
  | some j =>
    simp only [hj, Option.some_bind]
    rw [List.get?_map]
    cases hri : raw.cells.get? i with
    | none => simp
    | some r => simp [List.get?_map]

/-- C7 (amended): after loading, every expected column is present; an
expected column absent from the source is synthesized as the empty
string for every row; and every cell under a source column is the parsed
cell with `NaN` normalized to the empty string.  (Cells parsed from the
source keep their parsed type, so they need not be strings — see the
counterexample.) -/
theorem load_fills_missing_columns_and_nulls (raw : RawFrame)
    (hrect : ∀ r ∈ raw.cells, r.length = raw.cols.length) :
    (∀ c ∈ expected_cols, c ∈ (load_data raw).cols) ∧
      (∀ c ∈ expected_cols, c ∉ raw.cols →
        ∀ i, i < raw.cells.length →
          dfCell (load_data raw) i c = some (Cell.str "")) ∧
      (∀ c i, c ∈ raw.cols →
        dfCell (load_data raw) i c = (rawCell raw i c).map unNaN) := by
  have hrect2 : Rect (fillna raw) := fillna_rect raw hrect
  refine ⟨?_, ?_, ?_⟩
  · intro c hc
    exact foldl_addMissing_mem expected_cols (fillna raw) c hc
  · intro c hc hnot i hi
    have hc2 : c ∉ (fillna raw).cols := hnot
    have hi2 : i < (fillna raw).rows.length := by
      simpa [fillna] using hi
    exact foldl_addMissing_new expected_cols (fillna raw) c (by decide) hc hc2
      hrect2 i hi2
  · intro c i hc
    have hc2 : c ∈ (fillna raw).cols := hc
    rw [load_data, foldl_dfCell_preserved expected_cols (fillna raw) i c hc2 hrect2,
      fillna_dfCell]

/-- A parsed source table missing five of the six expected columns, with
a `NaN` cell in the one it has. -/
def rawMissing : RawFrame := ⟨["Chapter"], [[none]]⟩

/-- Witness for C7: loading `rawMissing` synthesizes the `Section`
column as empty strings and normalizes the `NaN` Chapter cell. -/
theorem load_fills_missing_columns_and_nulls_witness :
    ("Section" ∈ (load_data rawMissing).cols) ∧
      dfCell (load_data rawMissing) 0 "Section" = some (Cell.str "") ∧
      dfCell (load_data rawMissing) 0 "Chapter" =
        (rawCell rawMissing 0 "Chapter").map unNaN :=
  ⟨(load_fills_missing_columns_and_nulls rawMissing (by decide)).1 "Section"
      (by decide),
    (load_fills_missing_columns_and_nulls rawMissing (by decide)).2.1 "Section"
      (by decide) (by decide) 0 (by decide),
    (load_fills_missing_columns_and_nulls rawMissing (by decide)).2.2 "Chapter"
      0 (by decide)⟩

/-- A parsed source table whose Chapter column was inferred as numeric
(`read_csv` parses a column of digits as numbers). -/
def rawNumeric : RawFrame :=
  ⟨expected_cols,
    [[some (Cell.rat 1), some (Cell.str "Intro"), some (Cell.str "npv"),
      some (Cell.str ""), some (Cell.str ""), some (Cell.str "")]]⟩

/-- C7 counterexample: the loaded store can hold a non-string field
value — `load_data` does not convert parsed numeric cells to strings, so
"every record has all six fields present as strings" fails (consistently,
the source wraps scored accesses in `str(...)`). -/
theorem load_keeps_numeric_cells :
    dfCell (load_data rawNumeric) 0 "Chapter" = some (Cell.rat 1) ∧
      Cell.isStr (Cell.rat 1) = false :=
  ⟨by decide, rfl⟩
